import Mathlib

/-!
Verification of `langchain/chains/sql_database/prompt.py`: two prompt
templates with named `{name}` placeholders, a rendering contract, and a
comma-separated-list output parser.

The template strings are transcribed verbatim from the source file.  The
rendering and parsing operations (`PromptTemplate.format` and
`CommaSeparatedListOutputParser.parse`) live outside this repository slice,
so they are modelled from the specification's contract.
-/

namespace SqlPrompt

/-- Literal text of `DEFAULT_TEMPLATE` preceding the `{dialect}` placeholder. -/
def sqlSeg1 : String :=
  "Given an input question, first create a syntactically correct "

/-- Literal text of `DEFAULT_TEMPLATE` between `{dialect}` and `{top_k}`. -/
def sqlSeg2 : String :=
  " query to run, then look at the results of the query and return the answer. Unless the user specifies in his question a specific number of examples he wishes to obtain, always limit your query to at most "

/-- Literal text of `DEFAULT_TEMPLATE` between `{top_k}` and `{table_info}`. -/
def sqlSeg3 : String :=
  " results using the \x27LIMIT\x27 clause. You can order the results by a relevant column to return the most interesting examples in the database, but you must place the \x27ORDER\x27 clause before the \x27LIMIT\x27 clause and never after. The \x27LIMIT\x27 clause should always be the last in your query.\n\nNever ask for all the columns in a specific table, only for the few relevant columns given the question. When possible, don\x27t query exactly but use \x27LIKE\x27 to make your queries more robust. Pay attention to use only the column names that you can see in the schema description and use exactly the same casing. Be careful not to include columns that do not exist and not to ask for columns in the wrong table.\n\nUse the following format:\n\nQuestion: \"Question here\"\nSQLQuery: \"SQL Query to run\"\nSQLResult: \"Result of the SQLQuery\"\nAnswer: \"Final answer here\"\n\nOnly use the following tables:\n\n"

/-- Literal text of `DEFAULT_TEMPLATE` between `{table_info}` and `{input}`. -/
def sqlSeg4 : String := "\n\nQuestion: "

/-- The source constant `DEFAULT_TEMPLATE`: the SQL-generation prompt text,
assembled from its literal segments and the four placeholder tokens, in
source order. -/
def DEFAULT_TEMPLATE : String :=
  sqlSeg1 ++ "{dialect}" ++ sqlSeg2 ++ "{top_k}" ++ sqlSeg3 ++ "{table_info}" ++ sqlSeg4 ++ "{input}"

/-- Literal text of `_DECIDER_TEMPLATE` preceding the `{query}` placeholder. -/
def decSeg1 : String :=
  "Given the below input question and list of potential tables, output a comma separated list of the table names that may be neccessary to answer this question.\n\nQuestion: "

/-- Literal text of `_DECIDER_TEMPLATE` between `{query}` and `{table_names}`. -/
def decSeg2 : String := "\n\nTable Names: "

/-- Literal text of `_DECIDER_TEMPLATE` after `{table_names}`. -/
def decSeg3 : String := "\n\nRelevant Table Names:"

/-- The source constant `_DECIDER_TEMPLATE`: the table-decider prompt text
(the Lean name drops the leading underscore of the Python name). -/
def DECIDER_TEMPLATE : String :=
  decSeg1 ++ "{query}" ++ decSeg2 ++ "{table_names}" ++ decSeg3

/-- Modelled from the spec: a Template is an immutable value pairing a
template string with its declared variable names (`PromptTemplate` is
imported by the source file, not defined in it). -/
structure Template where
  input_variables : List String
  template : String

/-- Accumulate the `{name}` placeholder tokens of a character stream.
The second argument holds the characters of a partially read placeholder
name (innermost first) once a `{` has been seen. -/
def placeholdersAux : List Char → Option (List Char) → List String
  | [], _ => []
  | c :: cs, none =>
    if c = '{' then placeholdersAux cs (some []) else placeholdersAux cs none
  | c :: cs, some acc =>
    if c = '}' then acc.reverse.asString :: placeholdersAux cs none
    else placeholdersAux cs (some (c :: acc))

/-- Modelled from the spec: the list of `{name}` placeholder tokens of a
template string, in order of occurrence. -/
def placeholders (s : String) : List String :=
  placeholdersAux s.data none

/-- Modelled from the spec: the rendering error taxonomy,
`MissingVariable` and `UnknownVariable`. -/
inductive RenderError
  | MissingVariable (name : String)
  | UnknownVariable (name : String)
deriving DecidableEq

/-- The characters substituted for the placeholder named `n`: the bound
value when `n` is bound, the literal token otherwise. -/
def lookupD (vars : List (String × String)) (n : String) : List Char :=
  match vars.lookup n with
  | some v => v.data
  | none => '{' :: (n.data ++ ['}'])

/-- Substitute placeholder tokens in a character stream.  Substituted
values are emitted as-is, never rescanned: no recursive substitution. -/
def substAux (vars : List (String × String)) : List Char → Option (List Char) → List Char
  | [], none => []
  | [], some acc => '{' :: acc.reverse
  | c :: cs, none =>
    if c = '{' then substAux vars cs (some [])
    else c :: substAux vars cs none
  | c :: cs, some acc =>
    if c = '}' then lookupD vars acc.reverse.asString ++ substAux vars cs none
    else substAux vars cs (some (c :: acc))

/-- Modelled from the spec: `render(template, variables)` checks that the
mapping binds exactly the declared variable names — a declared name with no
binding is a `MissingVariable` error, a binding whose key is undeclared is
an `UnknownVariable` error — and otherwise returns the template string with
every `{name}` occurrence replaced by its bound value. -/
def render (t : Template) (vars : List (String × String)) : Except RenderError String :=
  match t.input_variables.find? (fun n => (vars.lookup n).isNone) with
  | some n => .error (.MissingVariable n)
  | none =>
    match vars.find? (fun p => !(t.input_variables.contains p.1)) with
    | some p => .error (.UnknownVariable p.1)
    | none => .ok (substAux vars t.template.data none).asString

/-- The source constant `PROMPT` as intended: declared variables
`["input", "table_info", "dialect", "top_k"]` over the SQL template text.
The source actually passes the undefined name `_DEFAULT_TEMPLATE` as the
template (see `moduleInit`), so this is the construction the surrounding
spec describes, with the template string the source defines. -/
def PROMPT : Template :=
  { input_variables := ["input", "table_info", "dialect", "top_k"],
    template := DEFAULT_TEMPLATE }

/-- The source constant `DECIDER_PROMPT`: declared variables
`["query", "table_names"]` over the decider template text. -/
def DECIDER_PROMPT : Template :=
  { input_variables := ["query", "table_names"],
    template := DECIDER_TEMPLATE }

/-- A Python `NameError`: evaluation of an undefined module-level name. -/
inductive InitError
  | NameError (name : String)
deriving DecidableEq

/-- Look up a module-level name in the environment of bindings executed so
far; an absent name raises `NameError`, as in Python. -/
def lookupName (env : List (String × String)) (n : String) : Except InitError String :=
  match env.lookup n with
  | some v => Except.ok v
  | none => Except.error (InitError.NameError n)

/-- Module initialization of `prompt.py`, statement by statement: bind
`DEFAULT_TEMPLATE`, construct `PROMPT` from the name `_DEFAULT_TEMPLATE`
exactly as the source writes it, bind `_DECIDER_TEMPLATE`, construct
`DECIDER_PROMPT` from the name `_DECIDER_TEMPLATE`.  Returns the two
constructed templates, or the first `NameError` raised. -/
def moduleInit : Except InitError (Template × Template) := do
  let env1 : List (String × String) := [("DEFAULT_TEMPLATE", DEFAULT_TEMPLATE)]
  let t1 ← lookupName env1 ("_DEFAULT_TEMPLATE")
  let prompt : Template := { input_variables := ["input", "table_info", "dialect", "top_k"], template := t1 }
  let env2 : List (String × String) := env1 ++ [("_DECIDER_TEMPLATE", DECIDER_TEMPLATE)]
  let t2 ← lookupName env2 ("_DECIDER_TEMPLATE")
  let decider : Template := { input_variables := ["query", "table_names"], template := t2 }
  pure (prompt, decider)

/-- Split a character stream at every `,`: returns the current (first)
piece and the remaining pieces. -/
def commaSplitAux : List Char → List Char × List (List Char)
  | [] => ([], [])
  | c :: cs =>
    if c = ',' then ([], (commaSplitAux cs).1 :: (commaSplitAux cs).2)
    else (c :: (commaSplitAux cs).1, (commaSplitAux cs).2)

/-- The pieces of a character stream split on `,`; splitting `l` with `k`
commas yields exactly `k + 1` pieces, in order. -/
def commaSplit (l : List Char) : List (List Char) :=
  (commaSplitAux l).1 :: (commaSplitAux l).2

/-- Strip leading and trailing whitespace characters. -/
def trimChars (l : List Char) : List Char :=
  ((l.dropWhile Char.isWhitespace).reverse.dropWhile Char.isWhitespace).reverse

/-- Modelled from the spec: `CommaSeparatedListOutputParser.parse` — split
`raw` on `,`, trim surrounding whitespace from each piece, drop pieces that
are empty after trimming (the parser class is imported by the source file,
not defined in it). -/
def parse (raw : String) : List String :=
  ((commaSplit raw.data).map (fun p => (trimChars p).asString)).filter (fun s => s != "")

/-- Join pieces with a single `,` between consecutive pieces. -/
def joinComma : List (List Char) → List Char
  | [] => []
  | [p] => p
  | p :: q :: ps => p ++ ',' :: joinComma (q :: ps)

set_option maxRecDepth 100000

theorem asString_append (l₁ l₂ : List Char) : (l₁ ++ l₂).asString = l₁.asString ++ l₂.asString :=
  rfl

theorem asString_data (s : String) : s.data.asString = s :=
  rfl

theorem contains_eq_true_iff (l : List String) (a : String) : l.contains a = true ↔ a ∈ l :=
  List.elem_iff

theorem forall_ne_of_all (l : List Char) (ch : Char) (h : (l.all fun c => c != ch) = true) :
    ∀ c ∈ l, ¬ c = ch := fun c hc => bne_iff_ne.mp (List.all_eq_true.mp h c hc)

theorem substAux_append_free (vars : List (String × String)) (l₁ l₂ : List Char)
    (h : ∀ c ∈ l₁, ¬ c = '{') :
    substAux vars (l₁ ++ l₂) none = l₁ ++ substAux vars l₂ none := by
  induction l₁ with
  | nil => rfl
  | cons c cs ih =>
    have hc : ¬ c = '{' := h c (List.mem_cons_self c cs)
    simp only [List.cons_append, substAux, if_neg hc]
    exact congrArg (c :: ·) (ih fun x hx => h x (List.mem_cons_of_mem c hx))

theorem substAux_name (vars : List (String × String)) (m : List Char) (acc rest : List Char)
    (h : ∀ c ∈ m, ¬ c = '}') :
    substAux vars (m ++ '}' :: rest) (some acc) =
      lookupD vars (acc.reverse ++ m).asString ++ substAux vars rest none := by
  induction m generalizing acc with
  | nil => simp [substAux]
  | cons c cs ih =>
    have hc : ¬ c = '}' := h c (List.mem_cons_self c cs)
    simp only [List.cons_append, substAux, if_neg hc, List.append_eq]
    rw [ih (c :: acc) fun x hx => h x (List.mem_cons_of_mem c hx)]
    congr 2
    simp [List.append_assoc]

theorem substAux_placeholder (vars : List (String × String)) (n : String) (rest : List Char)
    (h : ∀ c ∈ n.data, ¬ c = '}') :
    substAux vars ('{' :: (n.data ++ '}' :: rest)) none =
      lookupD vars n ++ substAux vars rest none := by
  have h1 : substAux vars ('{' :: (n.data ++ '}' :: rest)) none =
      substAux vars (n.data ++ '}' :: rest) (some []) := by
    simp [substAux]
  rw [h1, substAux_name vars n.data [] rest h]
  simp [asString_data]

/-- `DEFAULT_TEMPLATE` decomposed into literal segments and placeholder tokens. -/
theorem DEFAULT_TEMPLATE_decomp :
    DEFAULT_TEMPLATE.data =
      sqlSeg1.data ++ ('{' :: ("dialect".data ++ '}' ::
        (sqlSeg2.data ++ ('{' :: ("top_k".data ++ '}' ::
          (sqlSeg3.data ++ ('{' :: ("table_info".data ++ '}' ::
            (sqlSeg4.data ++ ('{' :: ("input".data ++ '}' :: ([] : List Char)))))))))))) := by
  rfl

/-- `DECIDER_TEMPLATE` decomposed into literal segments and placeholder tokens. -/
theorem DECIDER_TEMPLATE_decomp :
    DECIDER_TEMPLATE.data =
      decSeg1.data ++ ('{' :: ("query".data ++ '}' ::
        (decSeg2.data ++ ('{' :: ("table_names".data ++ '}' :: decSeg3.data))))) := by
  rfl

theorem render_ok (t : Template) (vars : List (String × String))
    (h1 : t.input_variables.find? (fun n => (vars.lookup n).isNone) = none)
    (h2 : vars.find? (fun p => !(t.input_variables.contains p.1)) = none) :
    render t vars = Except.ok (substAux vars t.template.data none).asString := by
  unfold render
  rw [h1, h2]

theorem lookupD_eq (vars : List (String × String)) (n : String) (v : String)
    (h : vars.lookup n = some v) : lookupD vars n = v.data := by
  unfold lookupD
  rw [h]

theorem render_PROMPT_eq (vars : List (String × String)) (inp ti d k : String)
    (hin : vars.lookup ("input") = some inp)
    (hti : vars.lookup ("table_info") = some ti)
    (hd : vars.lookup ("dialect") = some d)
    (hk : vars.lookup ("top_k") = some k)
    (hkeys : ∀ p ∈ vars, p.1 ∈ PROMPT.input_variables) :
    render PROMPT vars =
      Except.ok (sqlSeg1 ++ (d ++ (sqlSeg2 ++ (k ++ (sqlSeg3 ++ (ti ++ (sqlSeg4 ++ inp))))))) := by
  have h1 : PROMPT.input_variables.find? (fun n => (vars.lookup n).isNone) = none := by
    show (["input", "table_info", "dialect", "top_k"].find? fun n => (vars.lookup n).isNone) = none
    simp [List.find?_cons, hin, hti, hd, hk]
  have h2 : vars.find? (fun p => !(PROMPT.input_variables.contains p.1)) = none := by
    rw [List.find?_eq_none]
    intro p hp
    simp [contains_eq_true_iff, hkeys p hp]
  rw [render_ok PROMPT vars h1 h2,
    show PROMPT.template = DEFAULT_TEMPLATE from rfl, DEFAULT_TEMPLATE_decomp]
  rw [substAux_append_free vars sqlSeg1.data _ (forall_ne_of_all sqlSeg1.data '{' rfl),
    substAux_placeholder vars ("dialect") _ (forall_ne_of_all (("dialect").data) '}' rfl),
    substAux_append_free vars sqlSeg2.data _ (forall_ne_of_all sqlSeg2.data '{' rfl),
    substAux_placeholder vars ("top_k") _ (forall_ne_of_all (("top_k").data) '}' rfl),
    substAux_append_free vars sqlSeg3.data _ (forall_ne_of_all sqlSeg3.data '{' rfl),
    substAux_placeholder vars ("table_info") _ (forall_ne_of_all (("table_info").data) '}' rfl),
    substAux_append_free vars sqlSeg4.data _ (forall_ne_of_all sqlSeg4.data '{' rfl),
    substAux_placeholder vars ("input") _ (forall_ne_of_all (("input").data) '}' rfl)]
  rw [lookupD_eq vars _ d hd, lookupD_eq vars _ k hk, lookupD_eq vars _ ti hti,
    lookupD_eq vars _ inp hin]
  show Except.ok _ = _
  congr 1
  simp [asString_append, asString_data, substAux]

theorem render_DECIDER_eq (vars : List (String × String)) (q tn : String)
    (hq : vars.lookup ("query") = some q)
    (htn : vars.lookup ("table_names") = some tn)
    (hkeys : ∀ p ∈ vars, p.1 ∈ DECIDER_PROMPT.input_variables) :
    render DECIDER_PROMPT vars =
      Except.ok (decSeg1 ++ (q ++ (decSeg2 ++ (tn ++ decSeg3)))) := by
  have h1 : DECIDER_PROMPT.input_variables.find? (fun n => (vars.lookup n).isNone) = none := by
    show (["query", "table_names"].find? fun n => (vars.lookup n).isNone) = none
    simp [List.find?_cons, hq, htn]
  have h2 : vars.find? (fun p => !(DECIDER_PROMPT.input_variables.contains p.1)) = none := by
    rw [List.find?_eq_none]
    intro p hp
    simp [contains_eq_true_iff, hkeys p hp]
  rw [render_ok DECIDER_PROMPT vars h1 h2,
    show DECIDER_PROMPT.template = DECIDER_TEMPLATE from rfl, DECIDER_TEMPLATE_decomp]
  rw [substAux_append_free vars decSeg1.data _ (forall_ne_of_all decSeg1.data '{' rfl),
    substAux_placeholder vars ("query") _ (forall_ne_of_all (("query").data) '}' rfl),
    substAux_append_free vars decSeg2.data _ (forall_ne_of_all decSeg2.data '{' rfl),
    substAux_placeholder vars ("table_names") _ (forall_ne_of_all (("table_names").data) '}' rfl)]
  have h3 : substAux vars decSeg3.data none = decSeg3.data := by
    have h4 := substAux_append_free vars decSeg3.data [] (forall_ne_of_all decSeg3.data '{' rfl)
    simpa using h4
  rw [lookupD_eq vars _ q hq, lookupD_eq vars _ tn htn, h3]
  exact congrArg Except.ok (by simp [asString_append, asString_data])

theorem commaSplitAux_comma (cs : List Char) :
    commaSplitAux (',' :: cs) = ([], (commaSplitAux cs).1 :: (commaSplitAux cs).2) := by
  simp [commaSplitAux]

theorem commaSplitAux_cons (c : Char) (cs : List Char) (h : ¬ c = ',') :
    commaSplitAux (c :: cs) = (c :: (commaSplitAux cs).1, (commaSplitAux cs).2) := by
  simp [commaSplitAux, h]

theorem joinComma_cons_cons (p q : List Char) (ps : List (List Char)) :
    joinComma (p :: q :: ps) = p ++ ',' :: joinComma (q :: ps) := by
  simp [joinComma]

/-- Splitting on commas is a section of joining with commas: the pieces,
re-joined with `,`, reproduce the original character stream. -/
theorem joinComma_commaSplit (l : List Char) : joinComma (commaSplit l) = l := by
  induction l with
  | nil => rfl
  | cons c cs ih =>
    by_cases hc : c = ','
    · subst hc
      unfold commaSplit at ih ⊢
      rw [commaSplitAux_comma, joinComma_cons_cons]
      rw [ih]
      rfl
    · unfold commaSplit at ih ⊢
      rw [commaSplitAux_cons c cs hc]
      cases hB : (commaSplitAux cs).2 with
      | nil =>
        rw [hB] at ih
        show joinComma [c :: (commaSplitAux cs).1] = c :: cs
        simp only [joinComma] at ih ⊢
        rw [ih]
      | cons q ps =>
        rw [hB] at ih
        show joinComma ((c :: (commaSplitAux cs).1) :: q :: ps) = c :: cs
        rw [joinComma_cons_cons] at ih ⊢
        rw [List.cons_append, ih]

/-- No piece produced by splitting on commas contains a comma. -/
theorem commaSplit_no_comma (l : List Char) : ∀ p ∈ commaSplit l, ',' ∉ p := by
  induction l with
  | nil =>
    intro p hp
    simp [commaSplit, commaSplitAux] at hp
    simp [hp]
  | cons c cs ih =>
    by_cases hc : c = ','
    · subst hc
      intro p hp
      unfold commaSplit at hp
      rw [commaSplitAux_comma] at hp
      rcases List.mem_cons.mp hp with h | h
      · simp [h]
      · exact ih p h
    · intro p hp
      unfold commaSplit at hp
      rw [commaSplitAux_cons c cs hc] at hp
      rcases List.mem_cons.mp hp with h | h
      · subst h
        intro hmem
        rcases List.mem_cons.mp hmem with h | h
        · exact hc h.symm
        · exact ih (commaSplitAux cs).1 (List.mem_cons_self ..) h
      · exact ih p (List.mem_cons_of_mem _ h)

/-- Every character of every piece of a comma split occurs in the input. -/
theorem mem_of_mem_commaSplit (l : List Char) :
    ∀ p ∈ commaSplit l, ∀ c ∈ p, c ∈ l := by
  induction l with
  | nil =>
    intro p hp
    simp [commaSplit, commaSplitAux] at hp
    simp [hp]
  | cons a cs ih =>
    by_cases ha : a = ','
    · subst ha
      intro p hp c hcp
      unfold commaSplit at hp
      rw [commaSplitAux_comma] at hp
      rcases List.mem_cons.mp hp with h | h
      · subst h; simp at hcp
      · exact List.mem_cons_of_mem _ (ih p h c hcp)
    · intro p hp c hcp
      unfold commaSplit at hp
      rw [commaSplitAux_cons a cs ha] at hp
      rcases List.mem_cons.mp hp with h | h
      · subst h
        rcases List.mem_cons.mp hcp with h | h
        · exact h ▸ List.mem_cons_self ..
        · exact List.mem_cons_of_mem _ (ih (commaSplitAux cs).1 (List.mem_cons_self ..) c h)
      · exact List.mem_cons_of_mem _ (ih p (List.mem_cons_of_mem _ h) c hcp)

/-- A comma-free stream splits into the single piece that is itself. -/
theorem commaSplitAux_no_comma (l : List Char) (h : ',' ∉ l) : commaSplitAux l = (l, []) := by
  induction l with
  | nil => rfl
  | cons c cs ih =>
    have hc : ¬ c = ',' := fun hcc => h (hcc ▸ List.mem_cons_self ..)
    rw [commaSplitAux_cons c cs hc, ih fun hm => h (List.mem_cons_of_mem _ hm)]

/-- Splitting a comma-free piece followed by `,` and a remainder yields that
piece and then the split of the remainder. -/
theorem commaSplitAux_append (p l : List Char) (h : ',' ∉ p) :
    commaSplitAux (p ++ ',' :: l) = (p, commaSplit l) := by
  induction p with
  | nil => simp [commaSplitAux_comma, commaSplit]
  | cons c cs ih =>
    have hc : ¬ c = ',' := fun hcc => h (hcc ▸ List.mem_cons_self ..)
    rw [List.cons_append, commaSplitAux_cons c _ hc, ih fun hm => h (List.mem_cons_of_mem _ hm)]

/-- Joining comma-free pieces with commas and splitting again recovers the
pieces. -/
theorem commaSplit_joinComma (pieces : List (List Char)) (hne : pieces ≠ [])
    (hfree : ∀ p ∈ pieces, ',' ∉ p) :
    commaSplit (joinComma pieces) = pieces := by
  induction pieces with
  | nil => exact absurd rfl hne
  | cons p ps ih =>
    cases ps with
    | nil =>
      show commaSplit (joinComma [p]) = [p]
      have hp : ',' ∉ p := hfree p (List.mem_cons_self ..)
      simp only [joinComma]
      unfold commaSplit
      rw [commaSplitAux_no_comma p hp]
    | cons q qs =>
      rw [joinComma_cons_cons]
      have hp : ',' ∉ p := hfree p (List.mem_cons_self ..)
      unfold commaSplit
      rw [commaSplitAux_append p _ hp]
      show p :: commaSplit (joinComma (q :: qs)) = p :: q :: qs
      rw [ih (by simp) fun r hr => hfree r (List.mem_cons_of_mem _ hr)]

theorem head_dropWhile_false {α : Type} (p : α → Bool) (l : List α) {a : α} {t : List α}
    (h : l.dropWhile p = a :: t) : p a = false := by
  induction l with
  | nil => simp [List.dropWhile] at h
  | cons x xs ih =>
    rw [List.dropWhile_cons] at h
    by_cases hx : p x
    · rw [if_pos hx] at h
      exact ih h
    · rw [if_neg hx] at h
      have hxa : x = a := ((List.cons.injEq ..).mp h).1
      subst hxa
      exact Bool.eq_false_iff.mpr hx

theorem dropWhile_of_head_false {α : Type} (p : α → Bool) (l : List α) {a : α}
    (hh : l.head? = some a) (ha : p a = false) : l.dropWhile p = l := by
  cases l with
  | nil => simp at hh
  | cons x xs =>
    have : x = a := by simpa using hh
    subst this
    rw [List.dropWhile_cons, if_neg (by simp [ha])]

/-- The suffix kept by `dropWhile` ends where the whole list ends. -/
theorem getLast?_dropWhile {α : Type} (p : α → Bool) (l : List α)
    (h : l.dropWhile p ≠ []) : (l.dropWhile p).getLast? = l.getLast? := by
  obtain ⟨pre, hpre⟩ := List.dropWhile_suffix (l := l) p
  conv_rhs => rw [← hpre]
  rw [List.getLast?_append]
  cases hx : (l.dropWhile p).getLast? with
  | none => exact absurd (List.getLast?_eq_none_iff.mp hx) h
  | some a => rfl

/-- Trimming is idempotent. -/
theorem trimChars_idem (l : List Char) : trimChars (trimChars l) = trimChars l := by
  by_cases hv : (l.dropWhile Char.isWhitespace).reverse.dropWhile Char.isWhitespace = []
  · unfold trimChars
    rw [hv]
    rfl
  · have hu : l.dropWhile Char.isWhitespace ≠ [] := by
      intro h0
      rw [h0] at hv
      exact hv rfl
    obtain ⟨b, tb, hb⟩ := List.exists_cons_of_ne_nil hu
    obtain ⟨a, ta, ha⟩ := List.exists_cons_of_ne_nil hv
    have hbw : Char.isWhitespace b = false := head_dropWhile_false _ l hb
    have haw : Char.isWhitespace a = false := head_dropWhile_false _ _ ha
    set v : List Char := (l.dropWhile Char.isWhitespace).reverse.dropWhile Char.isWhitespace with hvdef
    have hlast : v.getLast? = some b := by
      rw [hvdef, getLast?_dropWhile _ _ hv, List.getLast?_reverse, hb]
      rfl
    show trimChars v.reverse = v.reverse
    unfold trimChars
    rw [dropWhile_of_head_false Char.isWhitespace v.reverse (by rw [List.head?_reverse]; exact hlast) hbw]
    rw [List.reverse_reverse]
    rw [dropWhile_of_head_false Char.isWhitespace v (by rw [ha]; rfl) haw]

/-- Every character surviving a trim was in the original stream. -/
theorem mem_of_mem_trimChars (l : List Char) (c : Char) (h : c ∈ trimChars l) : c ∈ l := by
  unfold trimChars at h
  rw [List.mem_reverse] at h
  have h1 := (List.dropWhile_suffix (l := (l.dropWhile Char.isWhitespace).reverse) Char.isWhitespace).sublist.subset h
  rw [List.mem_reverse] at h1
  exact (List.dropWhile_suffix (l := l) Char.isWhitespace).sublist.subset h1

/-- Trimming an all-whitespace stream leaves nothing. -/
theorem trimChars_eq_nil (l : List Char) (h : ∀ c ∈ l, Char.isWhitespace c) :
    trimChars l = [] := by
  unfold trimChars
  rw [List.dropWhile_eq_nil_iff.mpr h]
  rfl

/-- Elements of `parse x` are nonempty, comma-free, and already trimmed. -/
theorem mem_parse (x : String) (s : String) (hs : s ∈ parse x) :
    (s != "") = true ∧ ',' ∉ s.data ∧ trimChars s.data = s.data := by
  unfold parse at hs
  rw [List.mem_filter] at hs
  obtain ⟨hmap, hne⟩ := hs
  rw [List.mem_map] at hmap
  obtain ⟨p, hp, hps⟩ := hmap
  have hdata : s.data = trimChars p := by rw [← hps]; rfl
  refine ⟨hne, ?_, ?_⟩
  · intro hc
    rw [hdata] at hc
    exact commaSplit_no_comma x.data p hp (mem_of_mem_trimChars p ',' hc)
  · rw [hdata, trimChars_idem]

/-- C1: the claim says both templates are successfully constructed and bound
at module initialization.  The code instead evaluates the undefined name
`_DEFAULT_TEMPLATE` while constructing `PROMPT` (the constant bound two
statements earlier is `DEFAULT_TEMPLATE`), so module initialization raises
`NameError` and neither constant is bound: initialization fails. -/
theorem claim_C1_init_fails :
    moduleInit = Except.error (InitError.NameError ("_DEFAULT_TEMPLATE")) := rfl

/-- C2: the `{name}` placeholder tokens of the SQL template string are
exactly `dialect`, `top_k`, `table_info`, `input` (in that order of
occurrence), those of the decider template are exactly `query`,
`table_names`, and each template's placeholder set coincides with its
declared input-variable set. -/
theorem claim_C2 :
    placeholders DEFAULT_TEMPLATE = ["dialect", "top_k", "table_info", "input"] ∧
    placeholders DECIDER_TEMPLATE = ["query", "table_names"] ∧
    ∀ x : String,
      (x ∈ placeholders DEFAULT_TEMPLATE ↔ x ∈ PROMPT.input_variables) ∧
      (x ∈ placeholders DECIDER_TEMPLATE ↔ x ∈ DECIDER_PROMPT.input_variables) := by
  refine ⟨rfl, rfl, fun x => ⟨?_, ?_⟩⟩
  · rw [show placeholders DEFAULT_TEMPLATE = ["dialect", "top_k", "table_info", "input"] from rfl,
      show PROMPT.input_variables = ["input", "table_info", "dialect", "top_k"] from rfl]
    simp only [List.mem_cons, List.not_mem_nil, or_false]
    tauto
  · rw [show placeholders DECIDER_TEMPLATE = ["query", "table_names"] from rfl,
      show DECIDER_PROMPT.input_variables = ["query", "table_names"] from rfl]

theorem claim_C2_witness :
    placeholders DEFAULT_TEMPLATE = ["dialect", "top_k", "table_info", "input"] := claim_C2.1

/-- C3: for every variable mapping binding exactly the declared names of a
template to values free of literal braces, `render` succeeds and returns the
template text with each `{name}` occurrence replaced by its bound value and
all other characters unchanged (the result is the literal segments of the
template interleaved verbatim with the bound values; substituted values are
never rescanned). -/
theorem claim_C3 (varsP varsD : List (String × String)) (inp ti d k q tn : String)
    (hin : varsP.lookup ("input") = some inp)
    (hti : varsP.lookup ("table_info") = some ti)
    (hd : varsP.lookup ("dialect") = some d)
    (hk : varsP.lookup ("top_k") = some k)
    (hPkeys : ∀ p ∈ varsP, p.1 ∈ PROMPT.input_variables)
    (hq : varsD.lookup ("query") = some q)
    (htn : varsD.lookup ("table_names") = some tn)
    (hDkeys : ∀ p ∈ varsD, p.1 ∈ DECIDER_PROMPT.input_variables)
    (hnb : ∀ s ∈ [inp, ti, d, k, q, tn], ∀ c ∈ s.data, ¬ c = '{' ∧ ¬ c = '}') :
    render PROMPT varsP =
      Except.ok (sqlSeg1 ++ (d ++ (sqlSeg2 ++ (k ++ (sqlSeg3 ++ (ti ++ (sqlSeg4 ++ inp))))))) ∧
    render DECIDER_PROMPT varsD =
      Except.ok (decSeg1 ++ (q ++ (decSeg2 ++ (tn ++ decSeg3)))) :=
  ⟨render_PROMPT_eq varsP inp ti d k hin hti hd hk hPkeys,
    render_DECIDER_eq varsD q tn hq htn hDkeys⟩

theorem claim_C3_witness :
    render PROMPT [("input", "Q"), ("table_info", "T"), ("dialect", "sqlite"), ("top_k", "5")] =
      Except.ok (sqlSeg1 ++ ("sqlite" ++ (sqlSeg2 ++ ("5" ++ (sqlSeg3 ++ ("T" ++ (sqlSeg4 ++ "Q"))))))) ∧
    render DECIDER_PROMPT [("query", "Qn"), ("table_names", "a b")] =
      Except.ok (decSeg1 ++ ("Qn" ++ (decSeg2 ++ ("a b" ++ decSeg3)))) :=
  claim_C3 _ _ _ _ _ _ _ _ rfl rfl rfl rfl (by decide) rfl rfl (by decide) (by decide)

/-- C4: a variable mapping that omits at least one declared variable name
makes `render` fail with a `MissingVariable` error naming an absent declared
key (never a rendered string). -/
theorem claim_C4 (t : Template) (vars : List (String × String)) (n : String)
    (hn : n ∈ t.input_variables) (hmiss : vars.lookup n = none) :
    ∃ m, m ∈ t.input_variables ∧ vars.lookup m = none ∧
      render t vars = Except.error (RenderError.MissingVariable m) := by
  have hsome : (t.input_variables.find? fun x => (vars.lookup x).isNone).isSome = true := by
    rw [List.find?_isSome]
    exact ⟨n, hn, by rw [hmiss]; rfl⟩
  obtain ⟨m, hm⟩ := Option.isSome_iff_exists.mp hsome
  have hm2 := List.find?_some hm
  simp only [Option.isNone_iff_eq_none] at hm2
  refine ⟨m, List.mem_of_find?_eq_some hm, hm2, ?_⟩
  unfold render
  rw [hm]

theorem claim_C4_witness :
    ∃ m, m ∈ DECIDER_PROMPT.input_variables ∧
      (([("query", "q")] : List (String × String)).lookup m = none) ∧
      render DECIDER_PROMPT [("query", "q")] = Except.error (RenderError.MissingVariable m) :=
  claim_C4 DECIDER_PROMPT _ ("table_names") (by decide) rfl

/-- C5 (counterexample to the claim as stated): the mapping
`{query ↦ q, bogus ↦ b}` contains the undeclared key `bogus`, yet `render`
on the decider template fails with `MissingVariable "table_names"`, not with
an `UnknownVariable` error: a missing declared variable takes precedence. -/
theorem claim_C5_counterexample :
    ("bogus", ("b")) ∈ ([("query", "q"), ("bogus", "b")] : List (String × String)) ∧
    ("bogus" ∉ DECIDER_PROMPT.input_variables) ∧
    render DECIDER_PROMPT [("query", "q"), ("bogus", "b")] =
      Except.error (RenderError.MissingVariable ("table_names")) :=
  ⟨by decide, by decide, rfl⟩

/-- C5 (amended): a variable mapping that binds every declared variable name
and contains a key not among the declared names makes `render` fail with an
`UnknownVariable` error naming an undeclared key. -/
theorem claim_C5 (t : Template) (vars : List (String × String)) (p : String × String)
    (hall : ∀ n ∈ t.input_variables, (vars.lookup n).isSome = true)
    (hp : p ∈ vars) (hnot : p.1 ∉ t.input_variables) :
    ∃ q, q ∈ vars ∧ q.1 ∉ t.input_variables ∧
      render t vars = Except.error (RenderError.UnknownVariable q.1) := by
  have h1 : t.input_variables.find? (fun n => (vars.lookup n).isNone) = none := by
    rw [List.find?_eq_none]
    intro x hx
    intro hcon
    rw [Option.isNone_iff_eq_none] at hcon
    have hx2 := hall x hx
    rw [hcon] at hx2
    simp at hx2
  have h2 : (vars.find? fun r => !(t.input_variables.contains r.1)).isSome = true := by
    rw [List.find?_isSome]
    refine ⟨p, hp, ?_⟩
    cases hcb : t.input_variables.contains p.1
    · rfl
    · exact absurd ((contains_eq_true_iff _ _).mp hcb) hnot
  obtain ⟨q0, hq0⟩ := Option.isSome_iff_exists.mp h2
  have hq0not : q0.1 ∉ t.input_variables := by
    have hq0p := List.find?_some hq0
    intro hmem
    rw [(contains_eq_true_iff _ _).mpr hmem] at hq0p
    simp at hq0p
  refine ⟨q0, List.mem_of_find?_eq_some hq0, hq0not, ?_⟩
  unfold render
  rw [h1, hq0]

theorem claim_C5_witness :
    ∃ q, q ∈ ([("query", "q"), ("table_names", "t"), ("bogus", "b")] : List (String × String)) ∧
      q.1 ∉ DECIDER_PROMPT.input_variables ∧
      render DECIDER_PROMPT [("query", "q"), ("table_names", "t"), ("bogus", "b")] =
        Except.error (RenderError.UnknownVariable q.1) :=
  claim_C5 DECIDER_PROMPT _ (("bogus", "b")) (by decide) (by decide) (by decide)

/-- C6: `parse` is splitting on `,`, trimming each piece, and dropping
pieces that trim to empty: every input decomposes into comma-free pieces
whose comma-join is the input, with `parse` equal to the trimmed nonempty
pieces; in particular the three example evaluations of the spec hold. -/
theorem claim_C6 :
    parse ("a, b,c ,") = ["a", "b", "c"] ∧ parse ("") = [] ∧
    parse ("single") = ["single"] ∧
    ∀ raw : String, ∃ pieces : List (List Char),
      joinComma pieces = raw.data ∧ (∀ p ∈ pieces, ',' ∉ p) ∧
      parse raw = ((pieces.map (fun p => (trimChars p).asString)).filter (fun s => s != "")) :=
  ⟨rfl, rfl, rfl, fun raw =>
    ⟨commaSplit raw.data, joinComma_commaSplit raw.data, commaSplit_no_comma raw.data, rfl⟩⟩

theorem claim_C6_witness : parse ("a, b,c ,") = ["a", "b", "c"] := claim_C6.1

/-- C7: `parse` is total — it returns a list for every input — and on
malformed input it degrades gracefully: an all-whitespace input yields `[]`,
and an input with no comma yields `[]` or a single-element list. -/
theorem claim_C7 (raw : String) :
    ((∀ c ∈ raw.data, Char.isWhitespace c) → parse raw = []) ∧
    (',' ∉ raw.data → parse raw = [] ∨ ∃ s, parse raw = [s]) := by
  constructor
  · intro hws
    unfold parse
    rw [List.filter_eq_nil_iff]
    intro s hs
    rw [List.mem_map] at hs
    obtain ⟨p, hp, hps⟩ := hs
    have htp : trimChars p = [] :=
      trimChars_eq_nil p fun c hc => hws c (mem_of_mem_commaSplit raw.data p hp c hc)
    rw [← hps, htp]
    decide
  · intro hnc
    unfold parse
    have hcs : commaSplit raw.data = [raw.data] := by
      unfold commaSplit
      rw [commaSplitAux_no_comma raw.data hnc]
    rw [hcs]
    simp only [List.map_cons, List.map_nil]
    by_cases he : ((trimChars raw.data).asString != "") = true
    · right
      refine ⟨(trimChars raw.data).asString, ?_⟩
      rw [List.filter_cons, if_pos he]
      rfl
    · left
      rw [List.filter_cons, if_neg he]
      rfl

theorem claim_C7_witness :
    parse (" \t ") = [] ∧ (parse ("ab") = [] ∨ ∃ s, parse ("ab") = [s]) :=
  ⟨(claim_C7 (" \t ")).1 (by decide), (claim_C7 ("ab")).2 (by decide)⟩

/-- C8: `parse` is idempotent under re-joining with commas: joining the
parsed pieces with `,` and parsing again yields the same list. -/
theorem claim_C8 (x : String) :
    parse ((joinComma ((parse x).map String.data)).asString) = parse x := by
  by_cases hps : parse x = []
  · rw [hps]
    rfl
  · have hmem : ∀ t ∈ parse x, (t != "") = true ∧ ',' ∉ t.data ∧ trimChars t.data = t.data :=
      fun t ht => mem_parse x t ht
    have hpne : (parse x).map String.data ≠ [] := by
      intro h0
      exact hps (List.map_eq_nil_iff.mp h0)
    have hpfree : ∀ p ∈ (parse x).map String.data, ',' ∉ p := by
      intro p hp
      rw [List.mem_map] at hp
      obtain ⟨t, ht, htp⟩ := hp
      rw [← htp]
      exact (hmem t ht).2.1
    show ((commaSplit ((joinComma ((parse x).map String.data)).asString).data).map
      (fun p => (trimChars p).asString)).filter (fun s => s != "") = parse x
    rw [show ((joinComma ((parse x).map String.data)).asString).data
        = joinComma ((parse x).map String.data) from rfl]
    rw [commaSplit_joinComma _ hpne hpfree]
    rw [List.map_map]
    have hmapid : (parse x).map ((fun p => (trimChars p).asString) ∘ String.data) = parse x := by
      have h1 : (parse x).map ((fun p => (trimChars p).asString) ∘ String.data)
          = (parse x).map id :=
        List.map_congr_left fun t ht => by
          show (trimChars t.data).asString = t
          rw [(hmem t ht).2.2]
          exact asString_data t
      rw [h1, List.map_id]
    rw [hmapid]
    rw [List.filter_eq_self.mpr fun t ht => (hmem t ht).1]

theorem claim_C8_witness :
    parse ((joinComma ((parse ("a ,b, a")).map String.data)).asString) = parse ("a ,b, a") :=
  claim_C8 ("a ,b, a")

/-- C9: `parse` keeps the trimmed pieces in their original left-to-right
order (its output is a sublist of the in-order trimmed piece list) and
retains duplicates (every nonempty string occurs in the output exactly as
often as among the trimmed pieces); e.g. duplicates survive in
`parse "a, b, a"`. -/
theorem claim_C9 (raw : String) :
    (parse raw).Sublist ((commaSplit raw.data).map (fun p => (trimChars p).asString)) ∧
    (∀ s : String, s ≠ "" →
      (parse raw).count s = ((commaSplit raw.data).map (fun p => (trimChars p).asString)).count s) ∧
    parse ("a, b, a") = ["a", "b", "a"] :=
  ⟨List.filter_sublist _, fun s hs => List.count_filter (bne_iff_ne.mpr hs), rfl⟩

theorem claim_C9_witness :
    (parse ("x, y, x")).count ("x") =
      ((commaSplit ("x, y, x").data).map (fun p => (trimChars p).asString)).count ("x") :=
  (claim_C9 ("x, y, x")).2.1 ("x") (by decide)

/-- C10: `render` and `parse` are deterministic pure functions — two
invocations with equal inputs return equal results (the embedding is purely
functional, so neither has observable effects). -/
theorem claim_C10 (t₁ t₂ : Template) (v₁ v₂ : List (String × String)) (r₁ r₂ : String)
    (ht : t₁ = t₂) (hv : v₁ = v₂) (hr : r₁ = r₂) :
    render t₁ v₁ = render t₂ v₂ ∧ parse r₁ = parse r₂ := by
  subst ht
  subst hv
  subst hr
  exact ⟨rfl, rfl⟩

theorem claim_C10_witness :
    render PROMPT [] = render PROMPT [] ∧ parse ("") = parse ("") :=
  claim_C10 PROMPT PROMPT [] [] ("") ("") rfl rfl rfl

end SqlPrompt
